import Mathlib

/-!
Formal model of `src/bin/check_samplesheet.py` (the samplesheet validator of
the nanostring repository).  Rows are modelled as ordered association lists
from column names to cell values, mirroring Python's insertion-ordered
dictionaries; the `RowChecker` instance state is modelled as an explicit
record threaded through the operations; Python exceptions are modelled with
an explicit error type returned alongside the mutated values, with the raise
points placed exactly where the source raises relative to its mutations.
The checker is instantiated with its default column names, exactly as
`check_samplesheet` constructs it (`RowChecker()`).
-/

namespace SampleSheet

/-- A row: an ordered mapping from column name to cell value, as produced by
`csv.DictReader` (Python dict preserving insertion order). -/
abbrev Row := List (String × String)

/-- Default name of the sample-identifier column (`sample_col="SAMPLE_ID"`). -/
def sample_col : String := "SAMPLE_ID"

/-- Default name of the file-reference column (`rcc_file="RCC_FILE"`). -/
def rcc_file : String := "RCC_FILE"

/-- Default name of the derived basename column (`rcc_file_name="RCC_FILE_NAME"`). -/
def rcc_file_name : String := "RCC_FILE_NAME"

/-- Dictionary read `row[k]`: value of the first (unique, in Python) binding
of key `k`, `none` when the key is absent (Python raises `KeyError`). -/
def getField? (row : Row) (k : String) : Option String :=
  match row with
  | [] => none
  | (k2, v) :: rest => if k2 = k then some v else getField? rest k

/-- Dictionary write `row[k] = v`: replaces the value of an existing key in
place (keeping its position), appends a new binding at the end otherwise,
exactly as Python dict assignment behaves. -/
def setField (row : Row) (k v : String) : Row :=
  match row with
  | [] => [(k, v)]
  | (k2, v2) :: rest => if k2 = k then (k2, v) :: rest else (k2, v2) :: setField rest k v

/-- Python `value.replace(" ", "_")`: with a single-character pattern and
replacement, `str.replace` is exactly the characterwise substitution of
`' '` by `'_'`. -/
def pySanitize (s : String) : String :=
  String.mk (s.data.map (fun c => if c = ' ' then '_' else c))

/-- Python `os.path.basename`: the substring after the last `'/'`
(posixpath semantics: `p[p.rfind(sep) + 1:]`). -/
def pyBasename (s : String) : String :=
  String.mk ((s.data.reverse.takeWhile (fun c => c != '/')).reverse)

/-- Python `s.endswith(pat)`: suffix test on the character sequences. -/
def pyEndsWith (s pat : String) : Bool :=
  pat.data.isSuffixOf s.data

/-- The constant `RowChecker.VALID_FORMATS` of the source, line 27.  Note that
it is a plain string, not a tuple of extension strings. -/
def VALID_FORMATS : String := ".RCC"

/-- The test of `RowChecker._validate_rcc_format`, line 130:
`any(filename.endswith(extension) for extension in self.VALID_FORMATS)`.
Iterating over the Python string `VALID_FORMATS` yields its characters as
one-character strings, so the test succeeds exactly when `filename` ends
with one of the characters of `".RCC"`. -/
def validRccFormat (filename : String) : Bool :=
  VALID_FORMATS.data.any (fun ext => pyEndsWith filename (String.singleton ext))

/-- Errors the checker can signal: `KeyError` from a missing dictionary key,
and `AssertionError` with the message of the corresponding `raise`. -/
inductive CheckErr where
  | keyError : String → CheckErr
  | assertionError : String → CheckErr
  deriving DecidableEq

/-- Model of `RowChecker._validate_sample`, lines 80-85: raise if the sample
field is empty (`len(...) <= 0`), otherwise replace spaces by underscores in
place.  Returns the (possibly mutated) row together with the raised error,
if any. -/
def validate_sample (row : Row) : Row × Option CheckErr :=
  match getField? row sample_col with
  | none => (row, some (CheckErr.keyError sample_col))
  | some v =>
    if v.length ≤ 0 then
      (row, some (CheckErr.assertionError ("Sample input is required.")))
    else
      (setField row sample_col (pySanitize v), none)

/-- Message raised by `_validate_rcc_format`, lines 131-134, with
`{', '.join(self.VALID_FORMATS)}` joining the characters of the string
constant. -/
def rccFormatMsg (filename : String) : String :=
  ("The RCC file has an unrecognized extension: ") ++ filename ++
    ("\nIt should be one of: ") ++
    String.intercalate (", ") (VALID_FORMATS.data.map String.singleton)

/-- Model of `RowChecker._validate_rcc_file` (lines 87-96), inlining
`_validate_rcc_format` (lines 128-134): raise if the file reference is
empty; raise if its format test fails; then derive the basename column when
it is absent from the row or present with an empty value, leaving it
untouched otherwise. -/
def validate_rcc_file (row : Row) : Row × Option CheckErr :=
  match getField? row rcc_file with
  | none => (row, some (CheckErr.keyError rcc_file))
  | some v =>
    if v.length ≤ 0 then
      (row, some (CheckErr.assertionError ("RCC file is required.")))
    else if validRccFormat v then
      match getField? row rcc_file_name with
      | none => (setField row rcc_file_name (pyBasename v), none)
      | some w =>
        if w.length ≤ 0 then (setField row rcc_file_name (pyBasename v), none)
        else (row, none)
    else
      (row, some (CheckErr.assertionError (rccFormatMsg v)))

/-- The mutable state of a `RowChecker` instance: `_seen`, a set of
(sample, file reference, basename) triples, and `modified`, the ordered
list of accepted rows. -/
structure RowCheckerState where
  seen : Finset (String × String × String)
  modified : List Row

/-- A freshly constructed `RowChecker()`: `_seen = set()`, `modified = []`. -/
def initState : RowCheckerState := ⟨∅, []⟩

/-- Model of `RowChecker.validate_and_transform`, lines 66-78: run
`_validate_sample`, then `_validate_rcc_file`, then record the triple into
`_seen` and append the mutated row to `modified`.  The result carries the
state after the call, the row object after the call (Python mutates it in
place), and the raised error, if any; an error raised by a validator leaves
`_seen` and `modified` exactly as they were, because line 77-78 only execute
after both validators return.  The three key reads of line 77 are modelled
in Python's left-to-right evaluation order. -/
def validate_and_transform (s : RowCheckerState) (row : Row) :
    RowCheckerState × Row × Option CheckErr :=
  match validate_sample row with
  | (row1, some e) => (s, row1, some e)
  | (row1, none) =>
    match validate_rcc_file row1 with
    | (row2, some e) => (s, row2, some e)
    | (row2, none) =>
      match getField? row2 sample_col with
      | none => (s, row2, some (CheckErr.keyError sample_col))
      | some a =>
        match getField? row2 rcc_file with
        | none => (s, row2, some (CheckErr.keyError rcc_file))
        | some b =>
          match getField? row2 rcc_file_name with
          | none => (s, row2, some (CheckErr.keyError rcc_file_name))
          | some c =>
            (⟨insert (a, b, c) s.seen, s.modified ++ [row2]⟩, row2, none)

/-- The rename loop of `validate_unique_samples`, lines 146-150: walk the
rows in order with a `Counter` (modelled as a total function defaulting to
0), increment the count of each row's sample and rewrite the sample to
`f"{sample}_T{seen[sample]}"`.  A missing sample key raises `KeyError` in
Python, leaving the rows already walked renamed and the rest untouched,
which the pair result reproduces. -/
def renameRows (cnt : String → Nat) (l : List Row) : List Row × Option CheckErr :=
  match l with
  | [] => ([], none)
  | row :: rest =>
    match getField? row sample_col with
    | none => (row :: rest, some (CheckErr.keyError sample_col))
    | some sample =>
      let n := cnt sample + 1
      let row2 := setField row sample_col (sample ++ ("_T") ++ toString n)
      let res := renameRows (fun k => if k = sample then n else cnt k) rest
      (row2 :: res.1, res.2)

/-- Model of `RowChecker.validate_unique_samples`, lines 136-150: raise if
the seen-set is not in bijection with the accepted rows
(`len(self._seen) != len(self.modified)`), a raise that happens before any
renaming; otherwise run the rename loop over `modified`. -/
def validate_unique_samples (s : RowCheckerState) : RowCheckerState × Option CheckErr :=
  if s.seen.card ≠ s.modified.length then
    (s, some (CheckErr.assertionError ("The pair of sample name and FASTQ must be unique.")))
  else
    let res := renameRows (fun _ => 0) s.modified
    (⟨s.seen, res.1⟩, res.2)

/-- State of a fresh checker after a sequence of rows has been offered to
`validate_and_transform` (a row whose validation raises leaves the checker
state unchanged). -/
def runRows (rows : List Row) : RowCheckerState :=
  rows.foldl (fun s r => (validate_and_transform s r).1) initState

/-- The uniqueness key recorded on line 77 for an accepted row (all three
keys are present on accepted rows, so the defaults never matter there). -/
def tripleOf (r : Row) : String × String × String :=
  ((getField? r sample_col).getD (""), (getField? r rcc_file).getD (""),
    (getField? r rcc_file_name).getD (""))

/-- The pre-rename sample identifier of an accepted row. -/
def sampleOf (r : Row) : String :=
  (getField? r sample_col).getD ("")

/-- Errors of the orchestration function `check_samplesheet`: the missing
required-header exit (line 211) and a per-row validation exit carrying the
reported 1-based line number (line 218, `i + 2`). -/
inductive RunError where
  | missingHeader : RunError
  | rowError : Nat → CheckErr → RunError
  deriving DecidableEq

/-- The `required_columns` set of line 203. -/
def requiredColumns : List String := ["RCC_FILE", "SAMPLE_ID"]

/-- The row loop of `check_samplesheet`, lines 214-219: validate each row in
turn against the shared checker, aborting with the 1-based input line number
(`i + 2`) on the first error. -/
def processRows (s : RowCheckerState) (idx : Nat) (rows : List Row) :
    Except RunError RowCheckerState :=
  match rows with
  | [] => Except.ok s
  | row :: rest =>
    match validate_and_transform s row with
    | (s2, _, none) => processRows s2 (idx + 1) rest
    | (_, _, some e) => Except.error (RunError.rowError (idx + 2) e)

/-- Model of `check_samplesheet`, lines 185-228, at the level of parsed
records: `fieldnames` is the header read by `csv.DictReader` and each
record lists the cell values of one data row (`DictReader` zips them with
the header).  Checks the required columns, validates every row with a fresh
`RowChecker`, appends `RCC_FILE_NAME` to the header when absent, and writes
each accepted row by listing its values in header order (`csv.DictWriter`).
Note that the source never calls `validate_unique_samples`, so the accepted
rows are written exactly as the per-row validation left them. -/
def check_samplesheet (fieldnames : List String) (records : List (List String)) :
    Except RunError (List String × List (List String)) :=
  if requiredColumns.all (fun c => fieldnames.contains c) then
    match processRows initState 0 (records.map (fun rec => fieldnames.zip rec)) with
    | Except.error e => Except.error e
    | Except.ok s =>
      let header :=
        if fieldnames.contains ("RCC_FILE_NAME") then fieldnames
        else fieldnames ++ ["RCC_FILE_NAME"]
      Except.ok (header, s.modified.map (fun r => header.map (fun h => (getField? r h).getD (""))))
  else
    Except.error RunError.missingHeader

def exRowA : Row := [(sample_col, "S1"), (rcc_file, "a.RCC")]

def exRowB : Row := [(sample_col, "S1"), (rcc_file, "b.RCC")]

def exState : RowCheckerState := runRows [exRowA, exRowB]

def StateInv (s : RowCheckerState) : Prop :=
  s.seen = (s.modified.map tripleOf).toFinset
  ∧ ∀ r ∈ s.modified, (getField? r sample_col).isSome

def BasenameInv (s : RowCheckerState) : Prop :=
  ∀ r ∈ s.modified, (getField? r rcc_file_name).getD ("") ≠ ("")

end SampleSheet

namespace SampleSheet

/-- C5: for an input CSV with header SAMPLE_ID,RCC_FILE and the single data
row "Sample A,run1.RCC", the run succeeds, the output header is
SAMPLE_ID,RCC_FILE,RCC_FILE_NAME (RCC_FILE_NAME appended because absent from
the input header), and the single output row is "Sample_A,run1.RCC,run1.RCC". -/
theorem check_samplesheet_single_row_scenario :
    check_samplesheet ["SAMPLE_ID", "RCC_FILE"] [["Sample A", "run1.RCC"]]
      = Except.ok (["SAMPLE_ID", "RCC_FILE", "RCC_FILE_NAME"],
          [["Sample_A", "run1.RCC", "run1.RCC"]]) := rfl

/-- C1 (counterexample): on the input with two rows sharing sample S1 but
different RCC_FILE values, the sample-identifier column of the written
output is not the claimed S1_T1, S1_T2 — `check_samplesheet` never runs the
uniqueness/rename pass. -/
theorem check_samplesheet_rename_claim_refuted :
    ((check_samplesheet ["SAMPLE_ID", "RCC_FILE"]
        [["S1", "a.RCC"], ["S1", "b.RCC"]]).toOption.map
        (fun p => p.2.map (fun r => r.headD ("")))) ≠ some [("S1_T1" : String), "S1_T2"] := by
  decide

/-- C1 (amended): `check_samplesheet` applies only the per-row validation and
never invokes `validate_unique_samples`; for the input with two rows sharing
sample S1 but different RCC_FILE values, both rows are accepted and written
with their sample identifiers unchanged (S1 and S1, no disambiguation
suffix). -/
theorem check_samplesheet_writes_without_rename :
    check_samplesheet ["SAMPLE_ID", "RCC_FILE"] [["S1", "a.RCC"], ["S1", "b.RCC"]]
      = Except.ok (["SAMPLE_ID", "RCC_FILE", "RCC_FILE_NAME"],
          [["S1", "a.RCC", "a.RCC"], ["S1", "b.RCC", "b.RCC"]]) := rfl

/-- C2 (code evaluated at the failing input): a row whose RCC_FILE value is
"data.txR" — which does not end in ".RCC" — is accepted by
`validate_and_transform`, because `VALID_FORMATS` is the string ".RCC" and
iterating over it tests the suffixes ".", "R", "C", "C" characterwise. -/
theorem validRccFormat_accepts_non_rcc_suffix :
    (validate_and_transform initState [(sample_col, "s"), (rcc_file, "data.txR")]).2.2 = none
      ∧ pyEndsWith ("data.txR") (".RCC") = false
      ∧ validRccFormat ("data.txR") = true := by decide

end SampleSheet

namespace SampleSheet

theorem getField_setField_self (row : Row) (k v : String) :
    getField? (setField row k v) k = some v := by
  induction row with
  | nil => simp [setField, getField?]
  | cons p rest ih =>
    obtain ⟨k2, v2⟩ := p
    by_cases h : k2 = k
    · simp [setField, getField?, h]
    · simp [setField, getField?, h, ih]

theorem getField_setField_ne (row : Row) (k v k2 : String) (h : k2 ≠ k) :
    getField? (setField row k v) k2 = getField? row k2 := by
  induction row with
  | nil =>
    simp only [setField, getField?, if_neg (fun hh : k = k2 => h hh.symm)]
  | cons p rest ih =>
    obtain ⟨k3, v3⟩ := p
    by_cases h3 : k3 = k
    · subst h3
      simp only [setField, if_pos rfl, getField?,
        if_neg (fun hh : k3 = k2 => h (hh ▸ rfl)), ih]
    · by_cases h4 : k3 = k2
      · simp only [setField, if_neg h3, getField?, if_pos h4]
      · simp only [setField, if_neg h3, getField?, if_neg h4, ih]

theorem pySanitize_no_space (v : String) (c : Char) (hc : c ∈ (pySanitize v).data) :
    c ≠ ' ' := by
  simp only [pySanitize] at hc
  rcases List.mem_map.mp hc with ⟨c0, _, hmap⟩
  by_cases h0 : c0 = ' '
  · rw [if_pos h0] at hmap
    rw [← hmap]
    decide
  · rw [if_neg h0] at hmap
    rw [← hmap]
    exact h0

theorem pySanitize_idem (v : String) : pySanitize (pySanitize v) = pySanitize v := by
  simp only [pySanitize, List.map_map]
  congr 1
  apply List.map_congr_left
  intro c _
  by_cases h : c = ' ' <;> simp [h, Function.comp]

theorem pySanitize_fixed_of_no_space (w : String) (h : ∀ c ∈ w.data, c ≠ ' ') :
    pySanitize w = w := by
  rw [String.ext_iff]
  simp only [pySanitize]
  have h2 : w.data.map (fun c => if c = ' ' then '_' else c) = w.data.map id := by
    apply List.map_congr_left
    intro c hc
    simp [h c hc]
  rw [h2, List.map_id]

theorem pySanitize_ne_empty (v : String) (h : v ≠ ("")) : pySanitize v ≠ ("") := by
  intro hcon
  apply h
  have hdata : v.data.map (fun c => if c = ' ' then '_' else c) = [] :=
    congrArg String.data hcon
  have hlen := congrArg List.length hdata
  simp only [List.length_map, List.length_nil] at hlen
  rw [String.ext_iff]
  exact List.length_eq_zero.mp hlen

theorem pySanitize_all_underscore (v : String) (h : ∀ c ∈ v.data, c = ' ')
    (c : Char) (hc : c ∈ (pySanitize v).data) : c = '_' := by
  simp only [pySanitize] at hc
  rcases List.mem_map.mp hc with ⟨c0, hc0, hmap⟩
  rw [h c0 hc0] at hmap
  simpa using hmap.symm

theorem length_le_zero_iff (v : String) : v.length ≤ 0 ↔ v = ("") := by
  rw [Nat.le_zero, String.ext_iff]
  show v.data.length = 0 ↔ _
  rw [List.length_eq_zero]

theorem validRccFormat_last (v : String) (h : validRccFormat v = true) :
    v.data.reverse.headD '/' ≠ '/' := by
  simp only [validRccFormat, VALID_FORMATS, List.any_eq_true] at h
  rcases h with ⟨c, hc, hcend⟩
  have hsuf : (String.singleton c).data.isSuffixOf v.data = true := hcend
  have hsufl : [c] <:+ v.data := by
    simpa [String.singleton, List.isSuffixOf_iff_suffix] using hsuf
  rcases hsufl with ⟨t, ht⟩
  have hrev : v.data.reverse = c :: t.reverse := by
    rw [← ht]
    simp
  rw [hrev]
  simp only [List.headD_cons]
  intro hcon
  subst hcon
  simp at hc

theorem pyBasename_ne_empty (v : String) (h : validRccFormat v = true) :
    pyBasename v ≠ ("") := by
  have hlast := validRccFormat_last v h
  cases hrev : v.data.reverse with
  | nil => simp [hrev] at hlast
  | cons c t =>
    rw [hrev] at hlast
    simp only [List.headD_cons] at hlast
    simp only [pyBasename, hrev]
    rw [List.takeWhile_cons_of_pos (by simpa using hlast)]
    rw [Ne, String.ext_iff]
    simp

end SampleSheet

namespace SampleSheet

theorem validate_sample_of_empty (row : Row) (h : getField? row sample_col = some ("")) :
    validate_sample row = (row, some (CheckErr.assertionError ("Sample input is required."))) := by
  simp [validate_sample, h]

theorem validate_sample_of_nonempty (row : Row) (v : String)
    (hv : getField? row sample_col = some v) (h0 : v ≠ ("")) :
    validate_sample row = (setField row sample_col (pySanitize v), none) := by
  rw [validate_sample]
  simp only [hv]
  rw [if_neg (fun hle => h0 ((length_le_zero_iff v).mp hle))]

theorem validate_sample_of_nokey (row : Row) (hv : getField? row sample_col = none) :
    validate_sample row = (row, some (CheckErr.keyError sample_col)) := by
  rw [validate_sample]
  simp only [hv]

theorem validate_sample_success_shape (row row1 : Row)
    (h : validate_sample row = (row1, none)) :
    ∃ v, getField? row sample_col = some v ∧ v ≠ ("")
      ∧ row1 = setField row sample_col (pySanitize v) := by
  cases hv : getField? row sample_col with
  | none => rw [validate_sample_of_nokey row hv] at h; simp at h
  | some v =>
    by_cases h0 : v = ("")
    · subst h0
      rw [validate_sample_of_empty row hv] at h
      simp at h
    · rw [validate_sample_of_nonempty row v hv h0] at h
      exact ⟨v, rfl, h0, (Prod.mk.injEq .. |>.mp h).1.symm⟩

theorem validate_rcc_file_of_nokey (row : Row) (hv : getField? row rcc_file = none) :
    validate_rcc_file row = (row, some (CheckErr.keyError rcc_file)) := by
  rw [validate_rcc_file]
  simp only [hv]

theorem validate_rcc_file_of_empty (row : Row) (hv : getField? row rcc_file = some ("")) :
    validate_rcc_file row = (row, some (CheckErr.assertionError ("RCC file is required."))) := by
  rw [validate_rcc_file]
  simp only [hv]
  rw [if_pos (by decide)]

theorem validate_rcc_file_of_badformat (row : Row) (v : String)
    (hv : getField? row rcc_file = some v) (h0 : v ≠ (""))
    (hf : validRccFormat v = false) :
    validate_rcc_file row = (row, some (CheckErr.assertionError (rccFormatMsg v))) := by
  rw [validate_rcc_file]
  simp only [hv]
  rw [if_neg (fun hle => h0 ((length_le_zero_iff v).mp hle))]
  rw [if_neg (by simp [hf])]

theorem validate_rcc_file_of_derive_nokey (row : Row) (v : String)
    (hv : getField? row rcc_file = some v) (h0 : v ≠ (""))
    (hf : validRccFormat v = true) (hw : getField? row rcc_file_name = none) :
    validate_rcc_file row = (setField row rcc_file_name (pyBasename v), none) := by
  rw [validate_rcc_file]
  simp only [hv]
  rw [if_neg (fun hle => h0 ((length_le_zero_iff v).mp hle))]
  rw [if_pos hf]
  simp only [hw]

theorem validate_rcc_file_of_derive_empty (row : Row) (v : String)
    (hv : getField? row rcc_file = some v) (h0 : v ≠ (""))
    (hf : validRccFormat v = true) (hw : getField? row rcc_file_name = some ("")) :
    validate_rcc_file row = (setField row rcc_file_name (pyBasename v), none) := by
  rw [validate_rcc_file]
  simp only [hv]
  rw [if_neg (fun hle => h0 ((length_le_zero_iff v).mp hle))]
  rw [if_pos hf]
  simp only [hw]
  rw [if_pos (by decide)]

theorem validate_rcc_file_of_pass (row : Row) (v w : String)
    (hv : getField? row rcc_file = some v) (h0 : v ≠ (""))
    (hf : validRccFormat v = true) (hw : getField? row rcc_file_name = some w)
    (hw0 : w ≠ ("")) :
    validate_rcc_file row = (row, none) := by
  rw [validate_rcc_file]
  simp only [hv]
  rw [if_neg (fun hle => h0 ((length_le_zero_iff v).mp hle))]
  rw [if_pos hf]
  simp only [hw]
  rw [if_neg (fun hle => hw0 ((length_le_zero_iff w).mp hle))]

theorem validate_rcc_file_success_shape (row row2 : Row)
    (h : validate_rcc_file row = (row2, none)) :
    ∃ v, getField? row rcc_file = some v ∧ v ≠ ("") ∧ validRccFormat v = true ∧
      (((getField? row rcc_file_name = none ∨ getField? row rcc_file_name = some ("")) ∧
          row2 = setField row rcc_file_name (pyBasename v))
        ∨ (∃ w, getField? row rcc_file_name = some w ∧ w ≠ ("") ∧ row2 = row)) := by
  cases hv : getField? row rcc_file with
  | none => rw [validate_rcc_file_of_nokey row hv] at h; simp at h
  | some v =>
    by_cases h0 : v = ("")
    · subst h0
      rw [validate_rcc_file_of_empty row hv] at h
      simp at h
    · by_cases hf : validRccFormat v
      · cases hw : getField? row rcc_file_name with
        | none =>
          rw [validate_rcc_file_of_derive_nokey row v hv h0 hf hw] at h
          exact ⟨v, rfl, h0, hf, Or.inl ⟨Or.inl rfl, (Prod.mk.injEq .. |>.mp h).1.symm⟩⟩
        | some w =>
          by_cases hw0 : w = ("")
          · subst hw0
            rw [validate_rcc_file_of_derive_empty row v hv h0 hf hw] at h
            exact ⟨v, rfl, h0, hf, Or.inl ⟨Or.inr rfl, (Prod.mk.injEq .. |>.mp h).1.symm⟩⟩
          · rw [validate_rcc_file_of_pass row v w hv h0 hf hw hw0] at h
            exact ⟨v, rfl, h0, hf, Or.inr ⟨w, rfl, hw0, (Prod.mk.injEq .. |>.mp h).1.symm⟩⟩
      · rw [validate_rcc_file_of_badformat row v hv h0 (by simpa using hf)] at h
        simp at h

theorem validate_sample_other (row : Row) (k : String) (hk : k ≠ sample_col) :
    getField? (validate_sample row).1 k = getField? row k := by
  cases hv : getField? row sample_col with
  | none => rw [validate_sample_of_nokey row hv]
  | some v =>
    by_cases h0 : v = ("")
    · subst h0
      rw [validate_sample_of_empty row hv]
    · rw [validate_sample_of_nonempty row v hv h0]
      exact getField_setField_ne row sample_col (pySanitize v) k hk

theorem validate_rcc_file_other (row : Row) (k : String) (hk : k ≠ rcc_file_name) :
    getField? (validate_rcc_file row).1 k = getField? row k := by
  cases hv : getField? row rcc_file with
  | none => rw [validate_rcc_file_of_nokey row hv]
  | some v =>
    by_cases h0 : v = ("")
    · subst h0
      rw [validate_rcc_file_of_empty row hv]
    · by_cases hf : validRccFormat v
      · cases hw : getField? row rcc_file_name with
        | none =>
          rw [validate_rcc_file_of_derive_nokey row v hv h0 hf hw]
          exact getField_setField_ne row rcc_file_name (pyBasename v) k hk
        | some w =>
          by_cases hw0 : w = ("")
          · subst hw0
            rw [validate_rcc_file_of_derive_empty row v hv h0 hf hw]
            exact getField_setField_ne row rcc_file_name (pyBasename v) k hk
          · rw [validate_rcc_file_of_pass row v w hv h0 hf hw hw0]
      · rw [validate_rcc_file_of_badformat row v hv h0 (by simpa using hf)]

theorem validate_rcc_file_success_basename (row row2 : Row)
    (h : validate_rcc_file row = (row2, none)) :
    (getField? row2 rcc_file_name).getD ("") ≠ ("") := by
  obtain ⟨v, hv, h0, hf, hcase⟩ := validate_rcc_file_success_shape row row2 h
  rcases hcase with ⟨hw, hrow2⟩ | ⟨w, hw, hw0, hrow2⟩
  · rw [hrow2, getField_setField_self]
    simpa using pyBasename_ne_empty v hf
  · rw [hrow2, hw]
    simpa using hw0

end SampleSheet

namespace SampleSheet

theorem vat_of_sample_err (s : RowCheckerState) (row row1 : Row) (e : CheckErr)
    (h : validate_sample row = (row1, some e)) :
    validate_and_transform s row = (s, row1, some e) := by
  rw [validate_and_transform]
  simp only [h]

theorem vat_of_rcc_err (s : RowCheckerState) (row row1 row2 : Row) (e : CheckErr)
    (h1 : validate_sample row = (row1, none))
    (h2 : validate_rcc_file row1 = (row2, some e)) :
    validate_and_transform s row = (s, row2, some e) := by
  rw [validate_and_transform]
  simp only [h1, h2]

theorem vat_of_ok (s : RowCheckerState) (row row1 row2 : Row) (a b c : String)
    (h1 : validate_sample row = (row1, none))
    (h2 : validate_rcc_file row1 = (row2, none))
    (ha : getField? row2 sample_col = some a)
    (hb : getField? row2 rcc_file = some b)
    (hc : getField? row2 rcc_file_name = some c) :
    validate_and_transform s row
      = (⟨insert (a, b, c) s.seen, s.modified ++ [row2]⟩, row2, none) := by
  rw [validate_and_transform]
  simp only [h1, h2, ha, hb, hc]

theorem vat_of_key_err (s : RowCheckerState) (row row1 row2 : Row)
    (h1 : validate_sample row = (row1, none))
    (h2 : validate_rcc_file row1 = (row2, none))
    (hk : getField? row2 sample_col = none ∨
      ((getField? row2 sample_col).isSome ∧ getField? row2 rcc_file = none) ∨
      ((getField? row2 sample_col).isSome ∧ (getField? row2 rcc_file).isSome ∧
        getField? row2 rcc_file_name = none)) :
    (validate_and_transform s row).1 = s ∧ (validate_and_transform s row).2.2.isSome := by
  rw [validate_and_transform]
  simp only [h1, h2]
  rcases hk with ha | ⟨ha, hb⟩ | ⟨ha, hb, hc⟩
  · simp [ha]
  · rcases Option.isSome_iff_exists.mp ha with ⟨a, ha2⟩
    simp [ha2, hb]
  · rcases Option.isSome_iff_exists.mp ha with ⟨a, ha2⟩
    rcases Option.isSome_iff_exists.mp hb with ⟨b, hb2⟩
    simp [ha2, hb2, hc]

theorem vat_state_unchanged_on_error (s : RowCheckerState) (row : Row)
    (e : CheckErr) (h : (validate_and_transform s row).2.2 = some e) :
    (validate_and_transform s row).1 = s := by
  rcases hvs : validate_sample row with ⟨row1, oe1⟩
  cases oe1 with
  | some e1 => rw [vat_of_sample_err s row row1 e1 hvs]
  | none =>
    rcases hvr : validate_rcc_file row1 with ⟨row2, oe2⟩
    cases oe2 with
    | some e2 => rw [vat_of_rcc_err s row row1 row2 e2 hvs hvr]
    | none =>
      cases ha : getField? row2 sample_col with
      | none => exact (vat_of_key_err s row row1 row2 hvs hvr (Or.inl ha)).1
      | some a =>
        cases hb : getField? row2 rcc_file with
        | none =>
          exact (vat_of_key_err s row row1 row2 hvs hvr
            (Or.inr (Or.inl ⟨by simp [ha], hb⟩))).1
        | some b =>
          cases hc : getField? row2 rcc_file_name with
          | none =>
            exact (vat_of_key_err s row row1 row2 hvs hvr
              (Or.inr (Or.inr ⟨by simp [ha], by simp [hb], hc⟩))).1
          | some c =>
            rw [vat_of_ok s row row1 row2 a b c hvs hvr ha hb hc] at h
            simp at h

/-- C8: `validate_and_transform` is atomic with respect to the checker
state: on any failing row (empty sample identifier, empty file reference,
unrecognized extension, or a missing key) the seen-set and the accepted-rows
sequence are exactly as they were before the call; the triple is recorded
and the row appended only when all validations pass. -/
theorem validate_and_transform_atomic_on_error (s : RowCheckerState) (row : Row)
    (e : CheckErr) (h : (validate_and_transform s row).2.2 = some e) :
    (validate_and_transform s row).1 = s :=
  vat_state_unchanged_on_error s row e h

/-- C8 witness: on the concrete row with an empty sample identifier the call
fails and the checker state is untouched. -/
theorem validate_and_transform_atomic_on_error_witness :
    (validate_and_transform initState [(sample_col, "")]).1 = initState :=
  validate_and_transform_atomic_on_error initState [(sample_col, "")]
    (CheckErr.assertionError ("Sample input is required.")) (by decide)

theorem vat_success_shape (s : RowCheckerState) (row : Row)
    (h : (validate_and_transform s row).2.2 = none) :
    ∃ row1 row2 a b c,
      validate_sample row = (row1, none) ∧ validate_rcc_file row1 = (row2, none) ∧
      getField? row2 sample_col = some a ∧ getField? row2 rcc_file = some b ∧
      getField? row2 rcc_file_name = some c ∧
      validate_and_transform s row
        = (⟨insert (a, b, c) s.seen, s.modified ++ [row2]⟩, row2, none) := by
  rcases hvs : validate_sample row with ⟨row1, oe1⟩
  cases oe1 with
  | some e1 => rw [vat_of_sample_err s row row1 e1 hvs] at h; simp at h
  | none =>
    rcases hvr : validate_rcc_file row1 with ⟨row2, oe2⟩
    cases oe2 with
    | some e2 => rw [vat_of_rcc_err s row row1 row2 e2 hvs hvr] at h; simp at h
    | none =>
      cases ha : getField? row2 sample_col with
      | none =>
        have := (vat_of_key_err s row row1 row2 hvs hvr (Or.inl ha)).2
        rw [h] at this
        simp at this
      | some a =>
        cases hb : getField? row2 rcc_file with
        | none =>
          have := (vat_of_key_err s row row1 row2 hvs hvr
            (Or.inr (Or.inl ⟨by simp [ha], hb⟩))).2
          rw [h] at this
          simp at this
        | some b =>
          cases hc : getField? row2 rcc_file_name with
          | none =>
            have := (vat_of_key_err s row row1 row2 hvs hvr
              (Or.inr (Or.inr ⟨by simp [ha], by simp [hb], hc⟩))).2
            rw [h] at this
            simp at this
          | some c =>
            exact ⟨row1, row2, a, b, c, rfl, hvr, ha, hb, hc,
              vat_of_ok s row row1 row2 a b c hvs hvr ha hb hc⟩

end SampleSheet

namespace SampleSheet

theorem vat_accepted_sample_value (s : RowCheckerState) (row : Row) (w : String)
    (h : (validate_and_transform s row).2.2 = none)
    (hw : getField? (validate_and_transform s row).2.1 sample_col = some w) :
    ∃ v, getField? row sample_col = some v ∧ v ≠ ("") ∧ w = pySanitize v := by
  obtain ⟨row1, row2, a, b, c, h1, h2, ha, hb, hc, heq⟩ := vat_success_shape s row h
  obtain ⟨v, hv, hv0, hrow1⟩ := validate_sample_success_shape row row1 h1
  simp only [heq] at hw
  have hpres : getField? row2 sample_col = getField? row1 sample_col := by
    have hother := validate_rcc_file_other row1 sample_col (by decide)
    simp only [h2] at hother
    exact hother
  rw [hpres, hrow1, getField_setField_self] at hw
  exact ⟨v, hv, hv0, (Option.some.injEq .. |>.mp hw).symm⟩

/-- C6: for every row offered to `validate_and_transform`, an empty sample
identifier fails with the EmptyFieldError message "Sample input is
required."; otherwise every space in the sample identifier is replaced by an
underscore, so the accepted row's sample identifier contains no space
characters and is a fixed point of the substitution; and the substitution is
idempotent. -/
theorem validate_and_transform_sample_rules (s : RowCheckerState) (row : Row) :
    (getField? row sample_col = some ("") →
      (validate_and_transform s row).2.2
        = some (CheckErr.assertionError ("Sample input is required.")))
    ∧ (∀ w, (validate_and_transform s row).2.2 = none →
        getField? (validate_and_transform s row).2.1 sample_col = some w →
        (∀ c ∈ w.data, c ≠ ' ') ∧ pySanitize w = w)
    ∧ (∀ v, pySanitize (pySanitize v) = pySanitize v) := by
  refine ⟨?_, ?_, fun v => pySanitize_idem v⟩
  · intro h
    rw [vat_of_sample_err s row row (CheckErr.assertionError ("Sample input is required."))
      (validate_sample_of_empty row h)]
  · intro w h hw
    obtain ⟨v, _, _, hwv⟩ := vat_accepted_sample_value s row w h hw
    subst hwv
    exact ⟨fun c hc => pySanitize_no_space v c hc, pySanitize_idem v⟩

/-- C6 witness: the concrete row with an empty sample identifier fails with
the required message; on the accepted sample value a_b the substitution is a
fixed point. -/
theorem validate_and_transform_sample_rules_witness :
    ((validate_and_transform initState [(sample_col, ""), (rcc_file, "a.RCC")]).2.2
        = some (CheckErr.assertionError ("Sample input is required.")))
    ∧ pySanitize ("a_b") = ("a_b") :=
  ⟨(validate_and_transform_sample_rules initState
      [(sample_col, ""), (rcc_file, "a.RCC")]).1 (by decide),
   ((validate_and_transform_sample_rules initState
      [(sample_col, "a b"), (rcc_file, "a.RCC")]).2.1 ("a_b") (by decide) (by decide)).2⟩

/-- C7: for every row accepted by `validate_and_transform`, if the basename
column was absent from the input row or present with an empty value, the
accepted row's basename equals the filesystem basename of the file-reference
value; if it was present and non-empty, the accepted row's basename equals
the original input value exactly. -/
theorem validate_and_transform_basename_passthrough (s : RowCheckerState) (row : Row)
    (v : String) (hacc : (validate_and_transform s row).2.2 = none)
    (hv : getField? row rcc_file = some v) :
    ((getField? row rcc_file_name = none ∨ getField? row rcc_file_name = some ("")) →
      getField? (validate_and_transform s row).2.1 rcc_file_name = some (pyBasename v))
    ∧ (∀ w, getField? row rcc_file_name = some w → w ≠ ("") →
      getField? (validate_and_transform s row).2.1 rcc_file_name = some w) := by
  obtain ⟨row1, row2, a, b, c, h1, h2, ha, hb, hc, heq⟩ := vat_success_shape s row hacc
  obtain ⟨v1, hv1, hv10, hrow1⟩ := validate_sample_success_shape row row1 h1
  have hpres_file : getField? row1 rcc_file = getField? row rcc_file := by
    rw [hrow1]
    exact getField_setField_ne row sample_col (pySanitize v1) rcc_file (by decide)
  have hpres_name : getField? row1 rcc_file_name = getField? row rcc_file_name := by
    rw [hrow1]
    exact getField_setField_ne row sample_col (pySanitize v1) rcc_file_name (by decide)
  obtain ⟨v2, hv2, hv20, hf2, hcase⟩ := validate_rcc_file_success_shape row1 row2 h2
  have hvv : v2 = v := by
    rw [hpres_file, hv] at hv2
    exact (Option.some.injEq .. |>.mp hv2).symm
  subst hvv
  constructor
  · intro habs
    rcases hcase with ⟨hw, hrow2⟩ | ⟨w, hw, hw0, hrow2⟩
    · simp only [heq]
      rw [hrow2, getField_setField_self]
    · rw [hpres_name] at hw
      rcases habs with h3 | h3
      · rw [h3] at hw
        simp at hw
      · rw [h3] at hw
        exact absurd (Option.some.injEq .. |>.mp hw) (fun hcon => hw0 hcon.symm)
  · intro w hwin hw0
    rcases hcase with ⟨hwod, hrow2⟩ | ⟨w2, hw2, hw20, hrow2⟩
    · rw [hpres_name, hwin] at hwod
      rcases hwod with h3 | h3
      · simp at h3
      · exact absurd (Option.some.injEq .. |>.mp h3) hw0
    · simp only [heq]
      rw [hrow2, hpres_name, hwin]

/-- C7 witness: for the concrete accepted row without a basename column the
basename of the file reference (the part after the last slash) is filled
in. -/
theorem validate_and_transform_basename_passthrough_witness :
    getField? (validate_and_transform initState
        [(sample_col, "s"), (rcc_file, "dir/a.RCC")]).2.1 rcc_file_name
      = some (pyBasename ("dir/a.RCC")) :=
  (validate_and_transform_basename_passthrough initState
      [(sample_col, "s"), (rcc_file, "dir/a.RCC")] ("dir/a.RCC")
      (by decide) (by decide)).1 (Or.inl (by decide))

end SampleSheet

namespace SampleSheet

theorem vat_accepts (s : RowCheckerState) (row : Row) (v u : String)
    (hv : getField? row sample_col = some v) (hv0 : v ≠ (""))
    (hu : getField? row rcc_file = some u) (hu0 : u ≠ (""))
    (huf : validRccFormat u = true) :
    (validate_and_transform s row).2.2 = none := by
  have h1 := validate_sample_of_nonempty row v hv hv0
  have hu1 : getField? (setField row sample_col (pySanitize v)) rcc_file = some u := by
    rw [getField_setField_ne row sample_col (pySanitize v) rcc_file (by decide), hu]
  have hs1 : getField? (setField row sample_col (pySanitize v)) sample_col
      = some (pySanitize v) := getField_setField_self row sample_col (pySanitize v)
  cases hw : getField? (setField row sample_col (pySanitize v)) rcc_file_name with
  | none =>
    have h2 := validate_rcc_file_of_derive_nokey
      (setField row sample_col (pySanitize v)) u hu1 hu0 huf hw
    rw [vat_of_ok s row (setField row sample_col (pySanitize v))
      (setField (setField row sample_col (pySanitize v)) rcc_file_name (pyBasename u))
      (pySanitize v) u (pyBasename u) h1 h2
      (by rw [getField_setField_ne _ rcc_file_name (pyBasename u) sample_col (by decide)]
          exact hs1)
      (by rw [getField_setField_ne _ rcc_file_name (pyBasename u) rcc_file (by decide)]
          exact hu1)
      (getField_setField_self _ rcc_file_name (pyBasename u))]
  | some w =>
    by_cases hw0 : w = ("")
    · subst hw0
      have h2 := validate_rcc_file_of_derive_empty
        (setField row sample_col (pySanitize v)) u hu1 hu0 huf hw
      rw [vat_of_ok s row (setField row sample_col (pySanitize v))
        (setField (setField row sample_col (pySanitize v)) rcc_file_name (pyBasename u))
        (pySanitize v) u (pyBasename u) h1 h2
        (by rw [getField_setField_ne _ rcc_file_name (pyBasename u) sample_col (by decide)]
            exact hs1)
        (by rw [getField_setField_ne _ rcc_file_name (pyBasename u) rcc_file (by decide)]
            exact hu1)
        (getField_setField_self _ rcc_file_name (pyBasename u))]
    · have h2 := validate_rcc_file_of_pass
        (setField row sample_col (pySanitize v)) u w hu1 hu0 huf hw hw0
      rw [vat_of_ok s row (setField row sample_col (pySanitize v))
        (setField row sample_col (pySanitize v))
        (pySanitize v) u w h1 h2 hs1 hu1 hw]

/-- C10: a row whose sample-identifier field is a non-empty string of only
space characters is not rejected as empty — the emptiness check precedes the
space substitution — so with an otherwise valid file reference the row is
accepted and its sample identifier becomes a non-empty string of only
underscores. -/
theorem all_space_sample_accepted (s : RowCheckerState) (row : Row) (v u : String)
    (hv : getField? row sample_col = some v) (hv0 : v ≠ (""))
    (hsp : ∀ c ∈ v.data, c = ' ')
    (hu : getField? row rcc_file = some u) (hu0 : u ≠ (""))
    (huf : validRccFormat u = true) :
    (validate_and_transform s row).2.2 = none
    ∧ (∀ w, getField? (validate_and_transform s row).2.1 sample_col = some w →
        (w ≠ ("") ∧ ∀ c ∈ w.data, c = '_')) := by
  have hacc := vat_accepts s row v u hv hv0 hu hu0 huf
  refine ⟨hacc, fun w hw => ?_⟩
  obtain ⟨v2, hv2, hv20, hwv⟩ := vat_accepted_sample_value s row w hacc hw
  have hvv : v2 = v := by
    rw [hv] at hv2
    exact (Option.some.injEq .. |>.mp hv2).symm
  subst hvv
  subst hwv
  exact ⟨pySanitize_ne_empty v2 hv20, fun c hc => pySanitize_all_underscore v2 hsp c hc⟩

/-- C10 witness: the concrete row with sample identifier " " (one space) and
file reference a.RCC is accepted. -/
theorem all_space_sample_accepted_witness :
    (validate_and_transform initState [(sample_col, " "), (rcc_file, "a.RCC")]).2.2 = none :=
  (all_space_sample_accepted initState [(sample_col, " "), (rcc_file, "a.RCC")] (" ") ("a.RCC")
    (by decide) (by decide) (by decide) (by decide) (by decide) (by decide)).1

end SampleSheet

namespace SampleSheet

theorem renameRows_length (l : List Row) : ∀ cnt, (renameRows cnt l).1.length = l.length := by
  induction l with
  | nil => intro cnt; rfl
  | cons row rest ih =>
    intro cnt
    rw [renameRows]
    cases hs : getField? row sample_col with
    | none => simp only [hs]
    | some sample => simp only [hs, List.length_cons, ih]

theorem renameRows_err_none (l : List Row) :
    ∀ cnt, (∀ r ∈ l, (getField? r sample_col).isSome) → (renameRows cnt l).2 = none := by
  induction l with
  | nil => intro cnt _; rfl
  | cons row rest ih =>
    intro cnt hall
    rw [renameRows]
    cases hs : getField? row sample_col with
    | none => exact absurd (hall row (by simp)) (by simp [hs])
    | some sample =>
      simp only [hs]
      exact ih _ (fun r hr => hall r (by simp [hr]))

theorem renameRows_none_keys (l : List Row) :
    ∀ cnt, (renameRows cnt l).2 = none → ∀ r ∈ l, (getField? r sample_col).isSome := by
  induction l with
  | nil => intro cnt _ r hr; simp at hr
  | cons row rest ih =>
    intro cnt h r hr
    rw [renameRows] at h
    cases hs : getField? row sample_col with
    | none =>
      simp only [hs] at h
      exact absurd h (by simp)
    | some sample =>
      simp only [hs] at h
      rcases List.mem_cons.mp hr with rfl | hr2
      · simp [hs]
      · exact ih _ h r hr2

theorem renameRows_other (l : List Row) :
    ∀ cnt i (k : String), k ≠ sample_col →
      getField? ((renameRows cnt l).1.getD i []) k = getField? (l.getD i []) k := by
  induction l with
  | nil => intro cnt i k hk; rfl
  | cons row rest ih =>
    intro cnt i k hk
    rw [renameRows]
    cases hs : getField? row sample_col with
    | none => simp only [hs]
    | some sample =>
      simp only [hs]
      cases i with
      | zero =>
        simp only [List.getD_cons_zero]
        exact getField_setField_ne row sample_col (sample ++ ("_T") ++ toString (cnt sample + 1)) k hk
      | succ j =>
        simp only [List.getD_cons_succ]
        exact ih _ j k hk

theorem renameRows_sample (l : List Row) :
    ∀ (cnt : String → Nat) (i : Nat), i < l.length →
      (∀ r ∈ l, (getField? r sample_col).isSome) →
      getField? ((renameRows cnt l).1.getD i []) sample_col
        = some (sampleOf (l.getD i []) ++ ("_T") ++
            toString (cnt (sampleOf (l.getD i [])) +
              ((l.take (i + 1)).map sampleOf).count (sampleOf (l.getD i [])))) := by
  induction l with
  | nil => intro cnt i hi _; simp at hi
  | cons row rest ih =>
    intro cnt i hi hall
    rcases Option.isSome_iff_exists.mp (hall row (by simp)) with ⟨sample, hs⟩
    rw [renameRows]
    simp only [hs]
    have hsr : sampleOf row = sample := by rw [sampleOf, hs]; rfl
    cases i with
    | zero =>
      simp only [List.getD_cons_zero, List.take_succ_cons, List.take_zero, List.map_cons,
        List.map_nil]
      rw [getField_setField_self, hsr, List.count_cons]
      simp
    | succ j =>
      have hj : j < rest.length := by simpa using hi
      have hallr : ∀ r ∈ rest, (getField? r sample_col).isSome :=
        fun r hr => hall r (by simp [hr])
      simp only [List.getD_cons_succ, List.take_succ_cons, List.map_cons]
      rw [ih (fun k => if k = sample then cnt sample + 1 else cnt k) j hj hallr]
      rw [hsr, List.count_cons]
      by_cases hts : sampleOf (rest.getD j []) = sample
      · rw [hts]
        simp only [if_pos rfl, beq_self_eq_true, if_true]
        have harith : cnt sample + 1 + ((rest.take (j + 1)).map sampleOf).count sample
            = cnt sample + (((rest.take (j + 1)).map sampleOf).count sample + 1) := by
          omega
        rw [harith]
      · rw [if_neg hts]
        have hbeq : (sample == sampleOf (rest.getD j [])) = false := by
          simp only [beq_eq_false_iff_ne, Ne]
          exact fun hcon => hts hcon.symm
        rw [hbeq]
        simp

/-- C4: when `validate_unique_samples` succeeds, every accepted row's sample
identifier is rewritten, in original insertion order, to its pre-rename value
suffixed with _T followed by the 1-based count of rows carrying that
pre-rename identifier up to and including this row (contiguous and
order-preserving), and no column other than the sample identifier is
modified by the pass. -/
theorem validate_unique_samples_rename_spec (s : RowCheckerState) (i : Nat) (k : String)
    (h : (validate_unique_samples s).2 = none) (hi : i < s.modified.length)
    (hk : k ≠ sample_col) :
    (validate_unique_samples s).1.modified.length = s.modified.length
    ∧ getField? ((validate_unique_samples s).1.modified.getD i []) sample_col
        = some (sampleOf (s.modified.getD i []) ++ ("_T") ++
            toString (((s.modified.take (i + 1)).map sampleOf).count
              (sampleOf (s.modified.getD i []))))
    ∧ getField? ((validate_unique_samples s).1.modified.getD i []) k
        = getField? (s.modified.getD i []) k := by
  rw [validate_unique_samples] at h ⊢
  by_cases hc : s.seen.card ≠ s.modified.length
  · rw [if_pos hc] at h
    simp at h
  · rw [if_neg hc] at h ⊢
    have hnone : (renameRows (fun _ => 0) s.modified).2 = none := h
    have hkeys := renameRows_none_keys s.modified (fun _ => 0) hnone
    refine ⟨renameRows_length s.modified (fun _ => 0), ?_, ?_⟩
    · have hres := renameRows_sample s.modified (fun _ => 0) i hi hkeys
      simpa using hres
    · have hres := renameRows_other s.modified (fun _ => 0) i k hk
      simpa using hres

/-- C4 witness: on the state accumulated from two accepted rows sharing
sample S1 with different RCC files, the pass succeeds and renames the first
row to its pre-rename identifier with suffix _T1, leaving its RCC_FILE
column unchanged. -/
theorem validate_unique_samples_rename_spec_witness :
    (validate_unique_samples exState).1.modified.length = exState.modified.length
    ∧ getField? ((validate_unique_samples exState).1.modified.getD 0 []) sample_col
        = some (sampleOf (exState.modified.getD 0 []) ++ ("_T") ++
            toString (((exState.modified.take (0 + 1)).map sampleOf).count
              (sampleOf (exState.modified.getD 0 []))))
    ∧ getField? ((validate_unique_samples exState).1.modified.getD 0 []) rcc_file
        = getField? (exState.modified.getD 0 []) rcc_file :=
  validate_unique_samples_rename_spec exState 0 rcc_file (by decide) (by decide) (by decide)

end SampleSheet

namespace SampleSheet

theorem stateInv_init : StateInv initState := by
  constructor
  · rfl
  · intro r hr
    simp [initState] at hr

theorem stateInv_step (s : RowCheckerState) (row : Row) (h : StateInv s) :
    StateInv (validate_and_transform s row).1 := by
  cases he : (validate_and_transform s row).2.2 with
  | some e =>
    rw [vat_state_unchanged_on_error s row e he]
    exact h
  | none =>
    obtain ⟨row1, row2, a, b, c, h1, h2, ha, hb, hc, heq⟩ := vat_success_shape s row he
    rw [heq]
    obtain ⟨hseen, hkeys⟩ := h
    constructor
    · show insert (a, b, c) s.seen = ((s.modified ++ [row2]).map tripleOf).toFinset
      have htrip : tripleOf row2 = (a, b, c) := by
        rw [tripleOf, ha, hb, hc]
        rfl
      rw [List.map_append, List.toFinset_append, hseen, List.map_cons, List.map_nil,
        List.toFinset_cons, List.toFinset_nil, htrip]
      rw [Finset.union_comm]
      simp [Finset.insert_eq]
    · intro r hr
      rcases List.mem_append.mp hr with hr1 | hr2
      · exact hkeys r hr1
      · have hre : r = row2 := by simpa using hr2
        subst hre
        simp [ha]

theorem foldl_vat_preserves (P : RowCheckerState → Prop)
    (hstep : ∀ s row, P s → P (validate_and_transform s row).1) :
    ∀ (l : List Row) (s : RowCheckerState), P s →
      P (l.foldl (fun s r => (validate_and_transform s r).1) s) := by
  intro l
  induction l with
  | nil => intro s h; exact h
  | cons r rest ih =>
    intro s h
    exact ih _ (hstep s r h)

theorem stateInv_runRows (rows : List Row) : StateInv (runRows rows) :=
  foldl_vat_preserves StateInv stateInv_step rows initState stateInv_init

theorem toFinset_card_lt_iff {α : Type} [DecidableEq α] (l : List α) :
    l.toFinset.card < l.length ↔ ¬ l.Nodup := by
  rw [List.card_toFinset]
  constructor
  · intro h hnd
    rw [List.dedup_eq_self.mpr hnd] at h
    exact lt_irrefl _ h
  · intro h
    rcases Nat.lt_or_ge l.dedup.length l.length with h1 | h2
    · exact h1
    · exact absurd (List.dedup_eq_self.mp ((List.dedup_sublist l).eq_of_length
        (Nat.le_antisymm (List.Sublist.length_le (List.dedup_sublist l)) h2))) h

/-- C3: for a checker state accumulated by offering any sequence of rows to
`validate_and_transform`, `validate_unique_samples` fails exactly when the
seen-set is smaller than the accepted-rows list, which happens exactly when
at least two accepted rows recorded an identical (sample, file reference,
basename) triple; and on failure the state is returned unchanged (no row is
renamed, since the raise precedes the rename loop). -/
theorem validate_unique_samples_duplicate_iff (rows : List Row) :
    ((validate_unique_samples (runRows rows)).2.isSome
        ↔ (runRows rows).seen.card < (runRows rows).modified.length)
    ∧ ((validate_unique_samples (runRows rows)).2.isSome
        ↔ ¬ ((runRows rows).modified.map tripleOf).Nodup)
    ∧ (∀ e, (validate_unique_samples (runRows rows)).2 = some e →
        (validate_unique_samples (runRows rows)).1 = runRows rows) := by
  obtain ⟨hseen, hkeys⟩ := stateInv_runRows rows
  set s := runRows rows with hsdef
  have hlen : ((s.modified.map tripleOf)).length = s.modified.length :=
    List.length_map s.modified tripleOf
  have hcardle : s.seen.card ≤ s.modified.length := by
    rw [hseen, ← hlen]
    exact List.toFinset_card_le _
  have hlt : s.seen.card < s.modified.length ↔ ¬ (s.modified.map tripleOf).Nodup := by
    rw [hseen, ← hlen]
    exact toFinset_card_lt_iff _
  have hiff : (validate_unique_samples s).2.isSome ↔ s.seen.card ≠ s.modified.length := by
    rw [validate_unique_samples]
    by_cases hc : s.seen.card ≠ s.modified.length
    · rw [if_pos hc]
      simpa using hc
    · rw [if_neg hc]
      have hnone : (renameRows (fun _ => 0) s.modified).2 = none :=
        renameRows_err_none s.modified (fun _ => 0) hkeys
      simp [hnone, hc]
  have hne_lt : s.seen.card ≠ s.modified.length ↔ s.seen.card < s.modified.length :=
    ⟨fun h => Nat.lt_of_le_of_ne hcardle h, fun h => Nat.ne_of_lt h⟩
  refine ⟨hiff.trans hne_lt, (hiff.trans hne_lt).trans hlt, ?_⟩
  intro e he
  rw [validate_unique_samples] at he ⊢
  by_cases hc : s.seen.card ≠ s.modified.length
  · rw [if_pos hc]
  · rw [if_neg hc] at he
    have he2 : (renameRows (fun _ => 0) s.modified).2 = some e := he
    rw [renameRows_err_none s.modified (fun _ => 0) hkeys] at he2
    exact absurd he2 (by simp)

/-- C3 witness: offering the same row twice records one triple against two
accepted rows, so the pass fails and the state is returned unchanged. -/
theorem validate_unique_samples_duplicate_iff_witness :
    (validate_unique_samples (runRows [exRowA, exRowA])).1 = runRows [exRowA, exRowA] :=
  (validate_unique_samples_duplicate_iff [exRowA, exRowA]).2.2
    (CheckErr.assertionError ("The pair of sample name and FASTQ must be unique."))
    (by decide)

theorem basenameInv_init : BasenameInv initState := by
  intro r hr
  simp [initState] at hr

theorem basenameInv_step (s : RowCheckerState) (row : Row) (h : BasenameInv s) :
    BasenameInv (validate_and_transform s row).1 := by
  cases he : (validate_and_transform s row).2.2 with
  | some e =>
    rw [vat_state_unchanged_on_error s row e he]
    exact h
  | none =>
    obtain ⟨row1, row2, a, b, c, h1, h2, ha, hb, hc, heq⟩ := vat_success_shape s row he
    rw [heq]
    intro r hr
    rcases List.mem_append.mp hr with hr1 | hr2
    · exact h r hr1
    · have hre : r = row2 := by simpa using hr2
      subst hre
      exact validate_rcc_file_success_basename row1 r h2

theorem basenameInv_runRows (rows : List Row) : BasenameInv (runRows rows) :=
  foldl_vat_preserves BasenameInv basenameInv_step rows initState basenameInv_init

/-- C9: every row accepted by `validate_and_transform` has a non-empty value
in the file-reference-basename column, both in the accumulated checker state
and after `validate_unique_samples` runs over it (the rename pass touches
only the sample-identifier column). -/
theorem accepted_rows_basename_nonempty (rows : List Row) (r : Row) :
    (r ∈ (runRows rows).modified → (getField? r rcc_file_name).getD ("") ≠ (""))
    ∧ (r ∈ (validate_unique_samples (runRows rows)).1.modified →
        (getField? r rcc_file_name).getD ("") ≠ ("")) := by
  have hinv : BasenameInv (runRows rows) := basenameInv_runRows rows
  refine ⟨fun hr => hinv r hr, fun hr => ?_⟩
  rw [validate_unique_samples] at hr
  by_cases hc : (runRows rows).seen.card ≠ (runRows rows).modified.length
  · rw [if_pos hc] at hr
    exact hinv r hr
  · rw [if_neg hc] at hr
    have hr2 : r ∈ (renameRows (fun _ => 0) (runRows rows).modified).1 := hr
    obtain ⟨n, hget⟩ := List.mem_iff_get.mp hr2
    have hlen := renameRows_length (runRows rows).modified (fun _ => 0)
    have hn2 : n.1 < (runRows rows).modified.length := by
      rw [← hlen]
      exact n.2
    have hgd : (renameRows (fun _ => 0) (runRows rows).modified).1.getD n.1 [] = r := by
      rw [List.getD_eq_get _ _ n.2]
      exact hget
    have hother := renameRows_other (runRows rows).modified (fun _ => 0) n.1 rcc_file_name
      (by decide)
    rw [hgd] at hother
    rw [hother]
    apply hinv
    rw [List.getD_eq_get _ _ hn2]
    exact List.get_mem _ _ _

/-- C9 witness: the concrete accepted row derived from sample s and file
a.RCC carries the non-empty basename a.RCC. -/
theorem accepted_rows_basename_nonempty_witness :
    (getField? [(sample_col, "s"), (rcc_file, "a.RCC"), (rcc_file_name, "a.RCC")]
        rcc_file_name).getD ("") ≠ ("") :=
  (accepted_rows_basename_nonempty [[(sample_col, "s"), (rcc_file, "a.RCC")]]
    [(sample_col, "s"), (rcc_file, "a.RCC"), (rcc_file_name, "a.RCC")]).1 (by decide)

end SampleSheet
